import Mathlib

/-!
Verification of the CHIP-8 interpreter crate (`src/chip8/src/chip.rs`,
`src/chip8/src/error.rs`) and of the older in-tree decoder
(`src/src/opcode.rs`).  Machine integers are embedded as `Nat` with
explicit `% 256` / `% 65536` where the Rust code wraps; register file,
stack, memory and display are embedded as total functions from `Nat`
(the Rust arrays index them only at points the theorems constrain, and
theorems carry explicit in-bounds hypotheses wherever the source indexes
`memory`), while the 16-entry key latch is a `List Bool` so that the
out-of-bounds key accesses of `skip_if_key_at_vx_pressed` and
`skip_if_key_at_vx_not_pressed` are visible as error results.  Rust
panics (stack overflow/underflow, unsupported syscall, unknown opcode,
key index out of bounds, ROM too large) are surfaced as values of
`ChipError` or as `Option.none`, mirroring `error.rs`; each such check
happens in the source before any mutation, so the error case carries the
unchanged state.  The external random generator (`thread_rng`) is
modelled as an oracle byte stream carried in the state.
-/

/-- Pointwise update of a function, embedding a Rust array store. -/
def upd {α : Type} (f : Nat → α) (i : Nat) (v : α) : Nat → α :=
  fun j => if j = i then v else f j

/-- Error taxonomy of `src/chip8/src/error.rs` (`ChipError`), extended by
`KeyIndexOutOfBounds`, which stands for the slice-index panic that
`skip_if_key_at_vx_pressed`/`..._not_pressed` hit when `Vx` exceeds 15. -/
inductive ChipError : Type where
  | StackOverflow : ChipError
  | StackUnderflow : ChipError
  | InvalidKey : Nat → ChipError
  | UnknownOpcode : Nat → ChipError
  | SysOpcodeNotSupported : Nat → ChipError
  | KeyIndexOutOfBounds : Nat → ChipError
deriving DecidableEq, Repr

/-- The VM state of `src/chip8/src/chip.rs` (`struct Chip8`), plus the oracle
byte stream `rng_stream`/`rng_index` standing for `thread_rng()`. -/
structure Chip8 : Type where
  registers : Nat → Nat
  position_in_memory : Nat
  memory : Nat → Nat
  stack : Nat → Nat
  stack_pointer : Nat
  i_register : Nat
  delay_timer_register : Nat
  sound_timer_register : Nat
  keys : List Bool
  display : Nat → Bool
  rng_stream : Nat → Nat
  rng_index : Nat

/-- The built-in glyph table (`FONTSET` in `chip.rs`). -/
def FONTSET : List Nat :=
  [0xF0, 0x90, 0x90, 0x90, 0xF0,
   0x20, 0x60, 0x20, 0x20, 0x70,
   0xF0, 0x10, 0xF0, 0x80, 0xF0,
   0xF0, 0x10, 0xF0, 0x10, 0xF0,
   0x90, 0x90, 0xF0, 0x10, 0x10,
   0xF0, 0x80, 0xF0, 0x10, 0xF0,
   0xF0, 0x80, 0xF0, 0x90, 0xF0,
   0xF0, 0x10, 0x20, 0x40, 0x40,
   0xF0, 0x90, 0xF0, 0x90, 0xF0,
   0xF0, 0x90, 0xF0, 0x10, 0xF0,
   0xF0, 0x90, 0xF0, 0x90, 0x90,
   0xE0, 0x90, 0xE0, 0x90, 0xE0,
   0xF0, 0x80, 0x80, 0x80, 0xF0,
   0xE0, 0x90, 0x90, 0x90, 0xE0,
   0xF0, 0x80, 0xF0, 0x80, 0xF0,
   0xF0, 0x80, 0xF0, 0x80, 0x80]

/-- Fresh VM (`Chip8::new`): everything zeroed, the glyph table copied to
0x50..0x9F, and the program counter set to `START_ADDR = 0x200`. -/
def Chip8.new : Chip8 where
  registers := fun _ => 0
  position_in_memory := 0x200
  memory := fun a => if 0x50 ≤ a ∧ a < 0x50 + 80 then FONTSET.getD (a - 0x50) 0 else 0
  stack := fun _ => 0
  stack_pointer := 0
  i_register := 0
  delay_timer_register := 0
  sound_timer_register := 0
  keys := List.replicate 16 false
  display := fun _ => false
  rng_stream := fun _ => 0
  rng_index := 0

/-- `Chip8::load_rom`: copy the ROM bytes into memory starting at 0x200.
The Rust slice assignment panics when the ROM overruns the 4096-byte
memory; that bounds check is surfaced as `none`. -/
def Chip8.load_rom (s : Chip8) (rom : List Nat) : Option Chip8 :=
  if 0x200 + rom.length ≤ 0x1000 then
    some { s with memory := fun a =>
      if 0x200 ≤ a ∧ a < 0x200 + rom.length then rom.getD (a - 0x200) 0 else s.memory a }
  else none

/-- `Chip8::new_with_rom`: fresh VM with a ROM loaded. -/
def Chip8.new_with_rom (rom : List Nat) : Option Chip8 :=
  Chip8.new.load_rom rom

/-- `Chip8::tick_timers`: decrement each timer if it is positive. -/
def Chip8.tick_timers (s : Chip8) : Chip8 :=
  { s with
    delay_timer_register :=
      if 0 < s.delay_timer_register then s.delay_timer_register - 1
      else s.delay_timer_register
    sound_timer_register :=
      if 0 < s.sound_timer_register then s.sound_timer_register - 1
      else s.sound_timer_register }

/-- `Chip8::key_press`: set a key latch; keys above 15 panic (`InvalidKey`). -/
def Chip8.key_press (s : Chip8) (key : Nat) : Chip8 × Option ChipError :=
  if 15 < key then (s, some (.InvalidKey key))
  else ({ s with keys := s.keys.set key true }, none)

/-- `Chip8::key_release`: clear a key latch; keys above 15 panic. -/
def Chip8.key_release (s : Chip8) (key : Nat) : Chip8 × Option ChipError :=
  if 15 < key then (s, some (.InvalidKey key))
  else ({ s with keys := s.keys.set key false }, none)

/-- `Chip8::fetch`: big-endian combine the two bytes at the program counter
and advance it by 2.  Returns the opcode word and the updated state. -/
def Chip8.fetch (s : Chip8) : Nat × Chip8 :=
  let p := s.position_in_memory
  let op_byte1 := s.memory p
  let op_byte2 := s.memory (p + 1)
  (op_byte1 <<< 8 ||| op_byte2, { s with position_in_memory := p + 2 })

/-- 2nnn (`call`): push the current program counter (as u16) and jump.
A full stack panics with "Stack overflow" before any mutation. -/
def Chip8.call (s : Chip8) (addr : Nat) : Chip8 × Option ChipError :=
  if 16 ≤ s.stack_pointer then (s, some .StackOverflow)
  else
    ({ s with
        stack := upd s.stack s.stack_pointer (s.position_in_memory % 65536),
        stack_pointer := s.stack_pointer + 1,
        position_in_memory := addr }, none)

/-- 00EE (`ret`): pop the return address into the program counter.
An empty stack panics with "Stack underflow" before any mutation. -/
def Chip8.ret (s : Chip8) : Chip8 × Option ChipError :=
  if s.stack_pointer = 0 then (s, some .StackUnderflow)
  else
    ({ s with
        stack_pointer := s.stack_pointer - 1,
        position_in_memory := s.stack (s.stack_pointer - 1) }, none)

/-- 1nnn (`jump`). -/
def Chip8.jump (s : Chip8) (addr : Nat) : Chip8 :=
  { s with position_in_memory := addr }

/-- 3xkk (`skip_if_equal_at_x`). -/
def Chip8.skip_if_equal_at_x (s : Chip8) (x kk : Nat) : Chip8 :=
  if s.registers x = kk then { s with position_in_memory := s.position_in_memory + 2 }
  else s

/-- 4xkk (`skip_if_not_equal_at_x`). -/
def Chip8.skip_if_not_equal_at_x (s : Chip8) (x kk : Nat) : Chip8 :=
  if s.registers x ≠ kk then { s with position_in_memory := s.position_in_memory + 2 }
  else s

/-- 5xy0 (`skip_if_both_values_are_equal`). -/
def Chip8.skip_if_both_values_are_equal (s : Chip8) (x y : Nat) : Chip8 :=
  if s.registers x = s.registers y then
    { s with position_in_memory := s.position_in_memory + 2 }
  else s

/-- 9xy0 (`skip_if_both_values_are_not_equal`). -/
def Chip8.skip_if_both_values_are_not_equal (s : Chip8) (x y : Nat) : Chip8 :=
  if s.registers x ≠ s.registers y then
    { s with position_in_memory := s.position_in_memory + 2 }
  else s

/-- 6xkk (`load_value_to_register`). -/
def Chip8.load_value_to_register (s : Chip8) (x kk : Nat) : Chip8 :=
  { s with registers := upd s.registers x kk }

/-- 7xkk (`add_to_value_in_register`): wrapping 8-bit add, no flag effect. -/
def Chip8.add_to_value_in_register (s : Chip8) (x kk : Nat) : Chip8 :=
  { s with registers := upd s.registers x ((s.registers x + kk) % 256) }

/-- 8xy0 (`load_y_into_x`). -/
def Chip8.load_y_into_x (s : Chip8) (x y : Nat) : Chip8 :=
  { s with registers := upd s.registers x (s.registers y) }

/-- 8xy1 (`bitwise_or_xy`). -/
def Chip8.bitwise_or_xy (s : Chip8) (x y : Nat) : Chip8 :=
  { s with registers := upd s.registers x (s.registers x ||| s.registers y) }

/-- 8xy2 (`bitwise_and_xy`). -/
def Chip8.bitwise_and_xy (s : Chip8) (x y : Nat) : Chip8 :=
  { s with registers := upd s.registers x (s.registers x &&& s.registers y) }

/-- 8xy3 (`bitwise_xor_xy`). -/
def Chip8.bitwise_xor_xy (s : Chip8) (x y : Nat) : Chip8 :=
  { s with registers := upd s.registers x (s.registers x ^^^ s.registers y) }

/-- Helper `set_vf` of `chip.rs`: write 1 or 0 into register 0xF. -/
def Chip8.set_vf (s : Chip8) (set_to_one : Bool) : Chip8 :=
  { s with registers := upd s.registers 0xF (if set_to_one then 1 else 0) }

/-- 8xy4 (`add_xy`): `overflowing_add`, flag = carry. -/
def Chip8.add_xy (s : Chip8) (x y : Nat) : Chip8 :=
  let vx := s.registers x
  let vy := s.registers y
  ({ s with registers := upd s.registers x ((vx + vy) % 256) }).set_vf
    (decide (256 ≤ vx + vy))

/-- 8xy5 (`sub_y_from_x` in `chip.rs`): `Vx := Vx.wrapping_sub(Vy)`,
then `set_vf(vx > vy)` using the values read before the store. -/
def Chip8.sub_y_from_x (s : Chip8) (x y : Nat) : Chip8 :=
  let vx := s.registers x
  let vy := s.registers y
  ({ s with registers := upd s.registers x ((vx + 256 - vy) % 256) }).set_vf
    (decide (vy < vx))

/-- 8xy7 (`sub_x_from_y`): `Vx := Vy.wrapping_sub(Vx)`, flag = `vy > vx`. -/
def Chip8.sub_x_from_y (s : Chip8) (x y : Nat) : Chip8 :=
  let vx := s.registers x
  let vy := s.registers y
  ({ s with registers := upd s.registers x ((vy + 256 - vx) % 256) }).set_vf
    (decide (vx < vy))

/-- 8xy6 (`shift_right` in `chip.rs`): source register is Vy, result in Vx,
flag gets the pre-shift least significant bit of Vy. -/
def Chip8.shift_right (s : Chip8) (x y : Nat) : Chip8 :=
  let vy := s.registers y
  { s with registers := upd (upd s.registers x (vy >>> 1)) 0xF (vy &&& 1) }

/-- 8xyE (`shift_left` in `chip.rs`): `Vx := Vy << 1` (low byte kept), flag
gets the pre-shift most significant bit of Vy. -/
def Chip8.shift_left (s : Chip8) (x y : Nat) : Chip8 :=
  let vy := s.registers y
  { s with registers := upd (upd s.registers x ((vy <<< 1) % 256)) 0xF ((vy >>> 7) &&& 1) }

/-- Annn (`set_i_register`). -/
def Chip8.set_i_register (s : Chip8) (nnn : Nat) : Chip8 :=
  { s with i_register := nnn }

/-- Bnnn (`jump_plus_v0`): jump to `nnn + V0` (u16 addition; `nnn < 0x1000`
and `V0 < 0x100` keep it far from overflow). -/
def Chip8.jump_plus_v0 (s : Chip8) (nnn : Nat) : Chip8 :=
  s.jump (nnn + s.registers 0)

/-- Cxkk (`random_number_to_x`): a fresh oracle byte ANDed with `kk`. -/
def Chip8.random_number_to_x (s : Chip8) (x kk : Nat) : Chip8 :=
  { s with
    registers := upd s.registers x ((s.rng_stream s.rng_index % 256) &&& kk),
    rng_index := s.rng_index + 1 }

/-- Fx07 (`load_delay_timer_to_vx`). -/
def Chip8.load_delay_timer_to_vx (s : Chip8) (x : Nat) : Chip8 :=
  { s with registers := upd s.registers x s.delay_timer_register }

/-- Fx15 (`set_delay_timer`). -/
def Chip8.set_delay_timer (s : Chip8) (x : Nat) : Chip8 :=
  { s with delay_timer_register := s.registers x }

/-- Fx18 (`set_sound_timer`). -/
def Chip8.set_sound_timer (s : Chip8) (x : Nat) : Chip8 :=
  { s with sound_timer_register := s.registers x }

/-- Fx1E (`add_vx_to_i_register`): `wrapping_add` on the 16-bit index. -/
def Chip8.add_vx_to_i_register (s : Chip8) (x : Nat) : Chip8 :=
  { s with i_register := (s.i_register + s.registers x) % 65536 }

/-- Fx33 (`load_vx_as_decimal_into_memory_at_i`): BCD digits of Vx stored at
I, I+1, I+2. -/
def Chip8.load_vx_as_decimal_into_memory_at_i (s : Chip8) (x : Nat) : Chip8 :=
  let vx := s.registers x
  let i := s.i_register
  let m := upd (upd (upd s.memory i (vx / 100)) (i + 1) (vx % 100 / 10)) (i + 2) (vx % 10)
  { s with memory := m }

/-- Fx55 (`load_registers_v0_to_vx_into_memory_at_i`): store V0..=Vx at I..,
then `I += x + 1` (plain u16 add in the source, wrap shown explicitly). -/
def Chip8.load_registers_v0_to_vx_into_memory_at_i (s : Chip8) (x : Nat) : Chip8 :=
  { s with
    memory := (List.range (x + 1)).foldl
      (fun m r => upd m (s.i_register + r) (s.registers r)) s.memory,
    i_register := (s.i_register + x + 1) % 65536 }

/-- Fx65 (`fill_registers_v0_to_vx_from_memory_at_i`): load V0..=Vx from
memory at I (u16 address addition), then `I += x + 1`. -/
def Chip8.fill_registers_v0_to_vx_from_memory_at_i (s : Chip8) (x : Nat) : Chip8 :=
  { s with
    registers := (List.range (x + 1)).foldl
      (fun f r => upd f r (s.memory ((s.i_register + r) % 65536))) s.registers,
    i_register := (s.i_register + x + 1) % 65536 }

/-- Fx0A (`wait_for_keypress_store_vx`): scan all keys in ascending index
order, writing each pressed index into Vx (later matches overwrite earlier
ones); if none is pressed, rewind the program counter by 2. -/
def Chip8.wait_for_keypress_store_vx (s : Chip8) (x : Nat) : Chip8 :=
  let out := (List.range s.keys.length).foldl
    (fun acc i => if s.keys.getD i false then (upd acc.1 x i, true) else acc)
    (s.registers, false)
  { s with
    registers := out.1,
    position_in_memory :=
      if out.2 then s.position_in_memory else s.position_in_memory - 2 }

/-- Ex9E (`skip_if_key_at_vx_pressed`): indexing `keys[Vx]` panics when
`Vx` is at least 16, surfaced here as an error result. -/
def Chip8.skip_if_key_at_vx_pressed (s : Chip8) (x : Nat) : Chip8 × Option ChipError :=
  let vx := s.registers x
  match s.keys.get? vx with
  | some k =>
      ({ s with position_in_memory :=
          if k then s.position_in_memory + 2 else s.position_in_memory }, none)
  | none => (s, some (.KeyIndexOutOfBounds vx))

/-- ExA1 (`skip_if_key_at_vx_not_pressed`): as Ex9E with the test negated. -/
def Chip8.skip_if_key_at_vx_not_pressed (s : Chip8) (x : Nat) : Chip8 × Option ChipError :=
  let vx := s.registers x
  match s.keys.get? vx with
  | some k =>
      ({ s with position_in_memory :=
          if k then s.position_in_memory else s.position_in_memory + 2 }, none)
  | none => (s, some (.KeyIndexOutOfBounds vx))

/-- Dxyn (`draw`): XOR an 8-wide, n-high sprite read from memory at I onto
the display at (Vx, Vy), wrapping coordinates (u8 additions then mod 64/32),
and set the flag register to 1 iff a set pixel was overdrawn. -/
def Chip8.draw (s : Chip8) (x y n : Nat) : Chip8 :=
  let x_coord := s.registers x
  let y_coord := s.registers y
  let out := (List.range n).foldl
    (fun acc y_line =>
      let pixels := s.memory ((s.i_register + y_line) % 65536)
      (List.range 8).foldl
        (fun acc2 x_line =>
          if pixels &&& (0x80 >>> x_line) ≠ 0 then
            let px := (x_coord + x_line) % 256 % 64
            let py := (y_coord + y_line) % 256 % 32
            let idx := py * 64 + px
            (upd acc2.1 idx (!acc2.1 idx), acc2.2 || acc2.1 idx)
          else acc2)
        acc)
    (s.display, false)
  { s with
    display := out.1,
    registers := upd s.registers 0xF (if out.2 then 1 else 0) }

/-- 00E0 (`clear_screen`). -/
def Chip8.clear_screen (s : Chip8) : Chip8 :=
  { s with display := fun _ => false }

/-- Fx29 (`set_font_address_for_value_in_vx`): I := FONTSET_ADDR + 5 * Vx. -/
def Chip8.set_font_address_for_value_in_vx (s : Chip8) (x : Nat) : Chip8 :=
  { s with i_register := 0x50 + s.registers x * 5 }

/-- Modelled from the spec: the instruction variants dispatched by
`chip.rs::execute`.  The chip8 crate's own `opcode.rs` is not among the
provided sources (only its caller `chip.rs` is); the constructor names are
exactly the variants matched in `chip.rs::execute`. -/
inductive Chip8Op : Type where
  | Sys : Nat → Chip8Op
  | Jump : Nat → Chip8Op
  | JumpPlusV0 : Nat → Chip8Op
  | Call : Nat → Chip8Op
  | SkipIfEqualAtX : Nat → Nat → Chip8Op
  | SkipIfNotEqualAtX : Nat → Nat → Chip8Op
  | LoadValueToRegister : Nat → Nat → Chip8Op
  | AddToValueInRegister : Nat → Nat → Chip8Op
  | SkipIfBothValuesEqual : Nat → Nat → Chip8Op
  | SkipIfBothValuesNotEqual : Nat → Nat → Chip8Op
  | LoadYIntoX : Nat → Nat → Chip8Op
  | BitwiseOrXY : Nat → Nat → Chip8Op
  | BitwiseAndXY : Nat → Nat → Chip8Op
  | BitwiseXorXY : Nat → Nat → Chip8Op
  | AddXY : Nat → Nat → Chip8Op
  | SubYfromX : Nat → Nat → Chip8Op
  | SubXfromY : Nat → Nat → Chip8Op
  | Ret : Chip8Op
  | ShiftRight : Nat → Nat → Chip8Op
  | ShiftLeft : Nat → Nat → Chip8Op
  | SetIRegister : Nat → Chip8Op
  | RandomNumberToRegisterX : Nat → Nat → Chip8Op
  | LoadDelayTimerToVx : Nat → Chip8Op
  | SetDelayTimer : Nat → Chip8Op
  | SetSoundTimer : Nat → Chip8Op
  | AddVxToIRegister : Nat → Chip8Op
  | LoadVxAsDecimalIntoMemoryAtIRegister : Nat → Chip8Op
  | LoadRegistersV0ToVxIntoMemoryAtI : Nat → Chip8Op
  | FillRegistersV0ToVxFromMmoryAtI : Nat → Chip8Op
  | WaitForKeyPressAndStoreVx : Nat → Chip8Op
  | SkipIfKeyAtVxPressed : Nat → Chip8Op
  | SkipIfKeyAtVxNotPressed : Nat → Chip8Op
  | Draw : Nat → Nat → Nat → Chip8Op
  | ClearScreen : Chip8Op
  | SetICorrespondingFontAddressFromVx : Nat → Chip8Op
  | UnknownOpcode : Nat → Chip8Op
deriving DecidableEq, Repr

/-- Modelled from the spec: the chip8 crate's opcode decoder (the crate's
`opcode.rs` file is missing from the provided sources).  Decoding follows
spec §4.1: split the word into nibbles (c, x, y, d), the 12-bit address
`nnn` and the 8-bit immediate `kk`; the two fixed zero-operand
instructions (clear-display 0x00E0, return 0x00EE) are matched by exact
nibbles, every other word with c = 0 is a system call, and the remaining
rows follow the instruction list of spec §4.3 with wildcards on x,
falling back to the unrecognized variant. -/
def Chip8Op.decode (opcode : Nat) : Chip8Op :=
  let c := (opcode &&& 0xF000) >>> 12
  let x := (opcode &&& 0x0F00) >>> 8
  let y := (opcode &&& 0x00F0) >>> 4
  let d := opcode &&& 0x000F
  let nnn := opcode &&& 0x0FFF
  let kk := opcode &&& 0x00FF
  if c = 0x0 ∧ x = 0x0 ∧ y = 0xE ∧ d = 0x0 then .ClearScreen
  else if c = 0x0 ∧ x = 0x0 ∧ y = 0xE ∧ d = 0xE then .Ret
  else if c = 0x0 then .Sys nnn
  else if c = 0x1 then .Jump nnn
  else if c = 0x2 then .Call nnn
  else if c = 0x3 then .SkipIfEqualAtX x kk
  else if c = 0x4 then .SkipIfNotEqualAtX x kk
  else if c = 0x5 ∧ d = 0x0 then .SkipIfBothValuesEqual x y
  else if c = 0x6 then .LoadValueToRegister x kk
  else if c = 0x7 then .AddToValueInRegister x kk
  else if c = 0x8 ∧ d = 0x0 then .LoadYIntoX x y
  else if c = 0x8 ∧ d = 0x1 then .BitwiseOrXY x y
  else if c = 0x8 ∧ d = 0x2 then .BitwiseAndXY x y
  else if c = 0x8 ∧ d = 0x3 then .BitwiseXorXY x y
  else if c = 0x8 ∧ d = 0x4 then .AddXY x y
  else if c = 0x8 ∧ d = 0x5 then .SubYfromX x y
  else if c = 0x8 ∧ d = 0x6 then .ShiftRight x y
  else if c = 0x8 ∧ d = 0x7 then .SubXfromY x y
  else if c = 0x8 ∧ d = 0xE then .ShiftLeft x y
  else if c = 0x9 ∧ d = 0x0 then .SkipIfBothValuesNotEqual x y
  else if c = 0xA then .SetIRegister nnn
  else if c = 0xB then .JumpPlusV0 nnn
  else if c = 0xC then .RandomNumberToRegisterX x kk
  else if c = 0xD then .Draw x y d
  else if c = 0xE ∧ kk = 0x9E then .SkipIfKeyAtVxPressed x
  else if c = 0xE ∧ kk = 0xA1 then .SkipIfKeyAtVxNotPressed x
  else if c = 0xF ∧ kk = 0x07 then .LoadDelayTimerToVx x
  else if c = 0xF ∧ kk = 0x0A then .WaitForKeyPressAndStoreVx x
  else if c = 0xF ∧ kk = 0x15 then .SetDelayTimer x
  else if c = 0xF ∧ kk = 0x18 then .SetSoundTimer x
  else if c = 0xF ∧ kk = 0x1E then .AddVxToIRegister x
  else if c = 0xF ∧ kk = 0x29 then .SetICorrespondingFontAddressFromVx x
  else if c = 0xF ∧ kk = 0x33 then .LoadVxAsDecimalIntoMemoryAtIRegister x
  else if c = 0xF ∧ kk = 0x55 then .LoadRegistersV0ToVxIntoMemoryAtI x
  else if c = 0xF ∧ kk = 0x65 then .FillRegistersV0ToVxFromMmoryAtI x
  else .UnknownOpcode opcode

/-- `chip.rs::execute`: dispatch a decoded instruction to its handler.
`Sys` and `UnknownOpcode` panic in the source (`panic!` / `todo!`) and are
surfaced as errors carrying the untouched state. -/
def Chip8.execute (s : Chip8) (op : Chip8Op) : Chip8 × Option ChipError :=
  match op with
  | .Sys nnn => (s, some (.SysOpcodeNotSupported nnn))
  | .Jump nnn => (s.jump nnn, none)
  | .JumpPlusV0 nnn => (s.jump_plus_v0 nnn, none)
  | .Call nnn => s.call nnn
  | .SkipIfEqualAtX x kk => (s.skip_if_equal_at_x x kk, none)
  | .SkipIfNotEqualAtX x kk => (s.skip_if_not_equal_at_x x kk, none)
  | .LoadValueToRegister x kk => (s.load_value_to_register x kk, none)
  | .AddToValueInRegister x kk => (s.add_to_value_in_register x kk, none)
  | .SkipIfBothValuesEqual x y => (s.skip_if_both_values_are_equal x y, none)
  | .SkipIfBothValuesNotEqual x y => (s.skip_if_both_values_are_not_equal x y, none)
  | .LoadYIntoX x y => (s.load_y_into_x x y, none)
  | .BitwiseOrXY x y => (s.bitwise_or_xy x y, none)
  | .BitwiseAndXY x y => (s.bitwise_and_xy x y, none)
  | .BitwiseXorXY x y => (s.bitwise_xor_xy x y, none)
  | .AddXY x y => (s.add_xy x y, none)
  | .SubYfromX x y => (s.sub_y_from_x x y, none)
  | .SubXfromY x y => (s.sub_x_from_y x y, none)
  | .Ret => s.ret
  | .ShiftRight x y => (s.shift_right x y, none)
  | .ShiftLeft x y => (s.shift_left x y, none)
  | .SetIRegister nnn => (s.set_i_register nnn, none)
  | .RandomNumberToRegisterX x kk => (s.random_number_to_x x kk, none)
  | .LoadDelayTimerToVx x => (s.load_delay_timer_to_vx x, none)
  | .SetDelayTimer x => (s.set_delay_timer x, none)
  | .SetSoundTimer x => (s.set_sound_timer x, none)
  | .AddVxToIRegister x => (s.add_vx_to_i_register x, none)
  | .LoadVxAsDecimalIntoMemoryAtIRegister x => (s.load_vx_as_decimal_into_memory_at_i x, none)
  | .LoadRegistersV0ToVxIntoMemoryAtI x => (s.load_registers_v0_to_vx_into_memory_at_i x, none)
  | .FillRegistersV0ToVxFromMmoryAtI x => (s.fill_registers_v0_to_vx_from_memory_at_i x, none)
  | .WaitForKeyPressAndStoreVx x => (s.wait_for_keypress_store_vx x, none)
  | .SkipIfKeyAtVxPressed x => s.skip_if_key_at_vx_pressed x
  | .SkipIfKeyAtVxNotPressed x => s.skip_if_key_at_vx_not_pressed x
  | .Draw x y n => (s.draw x y n, none)
  | .ClearScreen => (s.clear_screen, none)
  | .SetICorrespondingFontAddressFromVx x => (s.set_font_address_for_value_in_vx x, none)
  | .UnknownOpcode op => (s, some (.UnknownOpcode op))

/-- `Chip8::tick`: one fetch-decode-execute cycle. -/
def Chip8.tick (s : Chip8) : Chip8 × Option ChipError :=
  let f := s.fetch
  f.2.execute (Chip8Op.decode f.1)

/-- Run `call` on a whole list of addresses, stopping at the first error
(used to state the 16-nested-calls property). -/
def Chip8.callSeq (s : Chip8) (addrs : List Nat) : Chip8 × Option ChipError :=
  addrs.foldl
    (fun acc a =>
      match acc.2 with
      | some _ => acc
      | none => acc.1.call a)
    (s, none)

/-- The instruction enum of the older in-tree decoder `src/src/opcode.rs`
(`enum Opcode`).  Note: it has no clear-screen, draw, key or bulk-transfer
variants, and its `ShiftRight`/`ShiftLeft` carry only `x`. -/
inductive Opcode : Type where
  | Sys : Nat → Opcode
  | Jump : Nat → Opcode
  | Call : Nat → Opcode
  | SkipIfEqualAtX : Nat → Nat → Opcode
  | SkipIfNotEqualAtX : Nat → Nat → Opcode
  | LoadValueToRegister : Nat → Nat → Opcode
  | AddToValueInRegister : Nat → Nat → Opcode
  | SkipIfBothValuesEqual : Nat → Nat → Opcode
  | LoadYIntoX : Nat → Nat → Opcode
  | BitwiseOrXY : Nat → Nat → Opcode
  | BitwiseAndXY : Nat → Nat → Opcode
  | BitwiseXorXY : Nat → Nat → Opcode
  | AddXY : Nat → Nat → Opcode
  | SubXfromY : Nat → Nat → Opcode
  | SubYfromX : Nat → Nat → Opcode
  | Ret : Opcode
  | ShiftRight : Nat → Opcode
  | ShiftLeft : Nat → Opcode
  | SkipIfBothValuesNotEqual : Nat → Nat → Opcode
  | SetIRegister : Nat → Opcode
  | JumpPlusV0 : Nat → Opcode
  | RandomNumberToRegisterX : Nat → Nat → Opcode
  | LoadDelayTimerToVx : Nat → Opcode
  | SetDelayTimer : Nat → Opcode
  | SetSoundTimer : Nat → Opcode
  | AddVxToIRegister : Nat → Opcode
  | LoadVxAsDecimalIntoMemoryAtIRegister : Nat → Opcode
  | UnknownOpcode : Nat → Opcode
deriving DecidableEq, Repr

/-- `Opcode::decode` of `src/src/opcode.rs`, with the match arms in source
order (the `Ret` arm for (0,0,E,E) precedes the catch-all (0,_,_,_) `Sys`
arm; there is no arm for 0x00E0). -/
def Opcode.decode (opcode : Nat) : Opcode :=
  let c := (opcode &&& 0xF000) >>> 12
  let x := (opcode &&& 0x0F00) >>> 8
  let y := (opcode &&& 0x00F0) >>> 4
  let d := opcode &&& 0x000F
  let nnn := opcode &&& 0x0FFF
  let kk := opcode &&& 0x00FF
  if c = 0x1 then .Jump nnn
  else if c = 0x2 then .Call nnn
  else if c = 0x3 then .SkipIfEqualAtX x kk
  else if c = 0x4 then .SkipIfNotEqualAtX x kk
  else if c = 0x5 ∧ d = 0x0 then .SkipIfBothValuesEqual x y
  else if c = 0x6 then .LoadValueToRegister x kk
  else if c = 0x7 then .AddToValueInRegister x kk
  else if c = 0x8 ∧ d = 0x0 then .LoadYIntoX x y
  else if c = 0x8 ∧ d = 0x1 then .BitwiseOrXY x y
  else if c = 0x8 ∧ d = 0x2 then .BitwiseAndXY x y
  else if c = 0x8 ∧ d = 0x3 then .BitwiseXorXY x y
  else if c = 0x8 ∧ d = 0x4 then .AddXY x y
  else if c = 0x8 ∧ d = 0x5 then .SubXfromY x y
  else if c = 0x8 ∧ d = 0x6 then .ShiftRight x
  else if c = 0x8 ∧ d = 0x7 then .SubYfromX x y
  else if c = 0x8 ∧ d = 0xE then .ShiftLeft x
  else if c = 0x9 ∧ d = 0x0 then .SkipIfBothValuesNotEqual x y
  else if c = 0xA then .SetIRegister nnn
  else if c = 0xB then .JumpPlusV0 nnn
  else if c = 0xC then .RandomNumberToRegisterX x kk
  else if c = 0xF ∧ y = 0x0 ∧ d = 0x7 then .LoadDelayTimerToVx x
  else if c = 0xF ∧ y = 0x1 ∧ d = 0x5 then .SetDelayTimer x
  else if c = 0xF ∧ y = 0x1 ∧ d = 0x8 then .SetSoundTimer x
  else if c = 0xF ∧ y = 0x1 ∧ d = 0xE then .AddVxToIRegister x
  else if c = 0xF ∧ y = 0x3 ∧ d = 0x3 then .LoadVxAsDecimalIntoMemoryAtIRegister x
  else if c = 0x0 ∧ x = 0x0 ∧ y = 0xE ∧ d = 0xE then .Ret
  else if c = 0x0 then .Sys nnn
  else .UnknownOpcode opcode

/-- An all-zero state used to build concrete inputs for the theorems below. -/
def chip8Zero : Chip8 where
  registers := fun _ => 0
  position_in_memory := 0
  memory := fun _ => 0
  stack := fun _ => 0
  stack_pointer := 0
  i_register := 0
  delay_timer_register := 0
  sound_timer_register := 0
  keys := List.replicate 16 false
  display := fun _ => false
  rng_stream := fun _ => 0
  rng_index := 0

/-- State with V0 = V1 = 5: an input where the two operands of 8xy5 are equal. -/
def c1EqState : Chip8 :=
  { chip8Zero with registers := fun j => if j = 0 ∨ j = 1 then 5 else 0 }

/-- State with V0 = 7, V1 = 3, used to instantiate the amended C1 theorem. -/
def c1WitState : Chip8 :=
  { chip8Zero with registers := fun j => if j = 0 then 7 else if j = 1 then 3 else 0 }

/-- The key-scan loop of `wait_for_keypress_store_vx`, generalized over the
number of scanned indices and the starting accumulator. -/
def keyScanFrom (l : List Bool) (x n : Nat) (p : (Nat → Nat) × Bool) : (Nat → Nat) × Bool :=
  (List.range n).foldl
    (fun acc i => if l.getD i false then (upd acc.1 x i, true) else acc) p

/-- State with keys 0 and 1 both down (and nothing else). -/
def c3State : Chip8 :=
  { chip8Zero with keys :=
      [true, true, false, false, false, false, false, false,
       false, false, false, false, false, false, false, false] }

/-- State with exactly key 2 down. -/
def c3WitState : Chip8 :=
  { chip8Zero with keys :=
      [false, false, true, false, false, false, false, false,
       false, false, false, false, false, false, false, false] }

/-- State with I = 0 and memory holding 7 at address 15 (and 0 elsewhere):
an input on which Fx65 with x = 15 overwrites the flag register. -/
def c5State : Chip8 :=
  { chip8Zero with memory := fun a => if a = 15 then 7 else 0 }

/-- Toggle a list of display cells in order, accumulating the pre-toggle
value of each into the collision flag — the elementary step of `draw`. -/
def toggleFold (p : (Nat → Bool) × Bool) (L : List Nat) : (Nat → Bool) × Bool :=
  L.foldl (fun acc q => (upd acc.1 q (!acc.1 q), acc.2 || acc.1 q)) p

/-- The display cells touched by `draw x y n` on state `s`, in the order the
nested sprite loops visit them (rows outward, bits MSB-first inward). -/
def pixList (s : Chip8) (x y n : Nat) : List Nat :=
  (List.range n).flatMap (fun y_line =>
    ((List.range 8).filter (fun x_line =>
        decide (s.memory ((s.i_register + y_line) % 65536) &&& (0x80 >>> x_line) ≠ 0))).map
      (fun x_line =>
        ((s.registers y + y_line) % 256 % 32) * 64 +
          (s.registers x + x_line) % 256 % 64))

/-- State whose program counter points at the instruction F30A (key-wait
into V3), with key 5 down. -/
def c7State : Chip8 :=
  { chip8Zero with
    position_in_memory := 0x200,
    memory := fun a => if a = 0x200 then 0xF3 else if a = 0x201 then 0x0A else 0,
    keys :=
      [false, false, false, false, false, true, false, false,
       false, false, false, false, false, false, false, false] }

/-- A one-instruction ROM: 1201, a jump to the odd address 0x201. -/
def c9OddRom : List Nat := [0x12, 0x01]

/-- A two-instruction ROM: 60FF (V0 := 0xFF) then BFFF (jump to FFF + V0). -/
def c9OobRom : List Nat := [0x60, 0xFF, 0xBF, 0xFF]

/-- Freshly constructed VM with the jump-to-odd ROM loaded. -/
def c9OddState : Chip8 := (Chip8.new_with_rom c9OddRom).getD chip8Zero

/-- Freshly constructed VM with the jump-past-memory ROM loaded. -/
def c9OobState : Chip8 := (Chip8.new_with_rom c9OobRom).getD chip8Zero

/-- State whose flag register holds 1 (the other registers 0), with a
one-pixel sprite (0x80) at I = 0: drawing it with x = 0xF makes the first
draw's flag write change the second draw's x coordinate. -/
def c8State : Chip8 :=
  { chip8Zero with
    registers := fun j => if j = 15 then 1 else 0,
    memory := fun a => if a = 0 then 0x80 else 0 }

/-- State with a two-pixel sprite row (0xC0) at I = 0 and one of the two
target cells already lit, used to instantiate the amended C8 theorem. -/
def c8WitState : Chip8 :=
  { chip8Zero with
    memory := fun a => if a = 0 then 0xC0 else 0,
    display := fun q => if q = 1 then true else false }

/-! ## General helper lemmas -/

theorem upd_same {α : Type} (f : Nat → α) (i : Nat) (v : α) : upd f i v i = v := by
  simp [upd]

theorem upd_other {α : Type} (f : Nat → α) (i j : Nat) (v : α) (h : j ≠ i) :
    upd f i v j = f j := by
  simp [upd, h]

/-- Mask with a shifted block of m ones, then shift down: this is the
div-mod reading of the nibble extractions in both decoders. -/
theorem mask_shift (w m k : Nat) :
    (w &&& ((2 ^ m - 1) <<< k)) >>> k = w / 2 ^ k % 2 ^ m := by
  apply Nat.eq_of_testBit_eq
  intro i
  rw [← Nat.shiftRight_eq_div_pow]
  simp [Nat.testBit_shiftRight, Nat.testBit_and, Nat.testBit_shiftLeft,
    Nat.testBit_mod_two_pow, Nat.testBit_two_pow_sub_one, Bool.and_comm]

theorem nibble_c (w : Nat) : (w &&& 0xF000) >>> 12 = w / 4096 % 16 := by
  have h := mask_shift w 4 12
  norm_num at h
  exact h

theorem nibble_x (w : Nat) : (w &&& 0x0F00) >>> 8 = w / 256 % 16 := by
  have h := mask_shift w 4 8
  norm_num at h
  exact h

theorem nibble_y (w : Nat) : (w &&& 0x00F0) >>> 4 = w / 16 % 16 := by
  have h := mask_shift w 4 4
  norm_num at h
  exact h

theorem nibble_d (w : Nat) : w &&& 0x000F = w % 16 :=
  Nat.and_pow_two_sub_one_eq_mod w 4

theorem addr_nnn (w : Nat) : w &&& 0x0FFF = w % 4096 :=
  Nat.and_pow_two_sub_one_eq_mod w 12

theorem imm_kk (w : Nat) : w &&& 0x00FF = w % 256 :=
  Nat.and_pow_two_sub_one_eq_mod w 8

/-! ## C1 — 8xy5 subtract -/

/-- C1, counterexample: with Vx = Vy = 5 the handler `sub_y_from_x` leaves the
flag register at 0, although the claim (flag = 1 iff a ≥ b) demands 1 at
a = b = 5. -/
theorem sub_y_from_x_claim_fails_at_equal :
    ¬ (((c1EqState.sub_y_from_x 0 1).registers 15 = 1) ↔ (5 : Nat) ≥ 5) := by
  decide

/-- C1 (amended): for 8-bit values a, b in Vx, Vy with x ≠ 0xF, the handler
`sub_y_from_x` stores (a - b) mod 256 in Vx and sets the flag register to 1
iff a > b (strict: the no-borrow convention of `chip.rs` line 301). -/
theorem sub_y_from_x_spec (s : Chip8) (x y a b : Nat)
    (hxF : x ≠ 15)
    (ha : s.registers x = a) (hb : s.registers y = b)
    (ha8 : a < 256) (hb8 : b < 256) :
    (s.sub_y_from_x x y).registers x = (a + 256 - b) % 256 ∧
    ((s.sub_y_from_x x y).registers 15 = 1 ↔ b < a) := by
  constructor
  · simp [Chip8.sub_y_from_x, Chip8.set_vf, upd, hxF, ha, hb]
  · simp only [Chip8.sub_y_from_x, Chip8.set_vf, upd_same, ha, hb]
    by_cases hba : b < a
    · simp [hba]
    · simp [hba]

/-- C1, witness: the amended theorem evaluated at V0 = 7, V1 = 3. -/
theorem sub_y_from_x_spec_witness :
    (c1WitState.sub_y_from_x 0 1).registers 0 = (7 + 256 - 3) % 256 ∧
    ((c1WitState.sub_y_from_x 0 1).registers 15 = 1 ↔ (3 : Nat) < 7) :=
  sub_y_from_x_spec c1WitState 0 1 7 3 (by decide) (by decide) (by decide)
    (by decide) (by decide)

/-! ## C2 — zero-page decoding in `src/src/opcode.rs` -/

/-- C2, counterexample: in the decoder of `src/src/opcode.rs`, the word
0x00E0 is not a distinguished clear-display instruction (the enum has no
such variant); it falls through to the catch-all system-call arm. -/
theorem decode_00E0_is_sys :
    Opcode.decode 0x00E0 = Opcode.Sys 0x0E0 ∧ Opcode.decode 0x00E0 ≠ Opcode.Ret := by
  constructor
  · decide
  · decide

/-- C2 (amended): in `src/src/opcode.rs`, only 0x00EE is matched by exact
nibbles among words with top nibble 0 (to the return variant); every other
such word — including 0x00E0 — decodes to the system-call variant carrying
the 12-bit address. -/
theorem decode_top_nibble_zero :
    Opcode.decode 0x00EE = Opcode.Ret ∧
    ∀ w, w < 0x1000 → w ≠ 0x00EE → Opcode.decode w = Opcode.Sys w := by
  constructor
  · decide
  · intro w hw hne
    have hc : (w &&& 0xF000) >>> 12 = 0 := by
      rw [nibble_c]
      omega
    have hd : w &&& 0x000F = w % 16 := nibble_d w
    have hx : (w &&& 0x0F00) >>> 8 = w / 256 % 16 := nibble_x w
    have hy : (w &&& 0x00F0) >>> 4 = w / 16 % 16 := nibble_y w
    have hn : w &&& 0x0FFF = w := by
      rw [addr_nnn]
      omega
    simp only [Opcode.decode, hc, hd, hx, hy, hn]
    norm_num
    omega

/-- C2, witness: the amended theorem evaluated at the word 0x0123. -/
theorem decode_top_nibble_zero_witness :
    (0x123 : Nat) < 0x1000 ∧ (0x123 : Nat) ≠ 0x00EE ∧
    Opcode.decode 0x123 = Opcode.Sys 0x123 :=
  ⟨by decide, by decide, decode_top_nibble_zero.2 0x123 (by decide) (by decide)⟩

/-! ## C4 — call/return and the bounded stack -/

/-- Any prefix of calls that keeps the stack within its 16 slots succeeds
and adds one level of depth per call. -/
theorem callSeq_ok (addrs : List Nat) (s : Chip8)
    (h : s.stack_pointer + addrs.length ≤ 16) :
    (s.callSeq addrs).2 = none ∧
    (s.callSeq addrs).1.stack_pointer = s.stack_pointer + addrs.length := by
  induction addrs generalizing s with
  | nil => simp [Chip8.callSeq]
  | cons a t ih =>
      have hsp : ¬ 16 ≤ s.stack_pointer := by
        simp at h
        omega
      have hstep : s.callSeq (a :: t) =
          Chip8.callSeq { s with
            stack := upd s.stack s.stack_pointer (s.position_in_memory % 65536),
            stack_pointer := s.stack_pointer + 1,
            position_in_memory := a } t := by
        simp [Chip8.callSeq, Chip8.call, hsp]
      rw [hstep]
      have ht := ih { s with
        stack := upd s.stack s.stack_pointer (s.position_in_memory % 65536),
        stack_pointer := s.stack_pointer + 1,
        position_in_memory := a } (by simp at h ⊢; omega)
      refine ⟨ht.1, ?_⟩
      have ht2 := ht.2
      simp at ht2 ⊢
      omega

/-- C4: a call followed by a return restores the exact pre-call program
counter; from an empty stack 16 nested calls succeed (reaching depth 16,
where any further call fails with StackOverflow and changes nothing); a
call with the stack full fails with StackOverflow leaving the state
untouched; a return with an empty stack fails with StackUnderflow leaving
the state untouched. -/
theorem call_ret_stack_spec (s : Chip8) (addr : Nat)
    (hpc : s.position_in_memory < 65536) :
    (s.stack_pointer < 16 →
      (s.call addr).2 = none ∧
      ((s.call addr).1.ret).2 = none ∧
      ((s.call addr).1.ret).1.position_in_memory = s.position_in_memory) ∧
    (∀ addrs : List Nat, s.stack_pointer = 0 → addrs.length = 16 →
      (s.callSeq addrs).2 = none ∧
      (s.callSeq addrs).1.stack_pointer = 16 ∧
      ∀ a, (s.callSeq addrs).1.call a = ((s.callSeq addrs).1, some ChipError.StackOverflow)) ∧
    (16 ≤ s.stack_pointer → s.call addr = (s, some ChipError.StackOverflow)) ∧
    (s.stack_pointer = 0 → s.ret = (s, some ChipError.StackUnderflow)) := by
  refine ⟨?_, ?_, ?_, ?_⟩
  · intro hsp
    have hsp' : ¬ 16 ≤ s.stack_pointer := by omega
    refine ⟨by simp [Chip8.call, hsp'], ?_, ?_⟩
    · simp [Chip8.call, hsp', Chip8.ret]
    · simp [Chip8.call, hsp', Chip8.ret, upd_same, Nat.mod_eq_of_lt hpc]
  · intro addrs h0 hlen
    have h := callSeq_ok addrs s (by omega)
    refine ⟨h.1, by omega, ?_⟩
    intro a
    have hfull : 16 ≤ (s.callSeq addrs).1.stack_pointer := by omega
    simp [Chip8.call, hfull]
  · intro hsp
    simp [Chip8.call, hsp]
  · intro hsp
    simp [Chip8.ret, hsp]

/-- C4, witness: the theorem evaluated on the all-zero state (stack depth 0,
program counter 0) and the call target 0x300. -/
theorem call_ret_stack_spec_witness :
    ((chip8Zero.stack_pointer < 16 →
      (chip8Zero.call 0x300).2 = none ∧
      ((chip8Zero.call 0x300).1.ret).2 = none ∧
      ((chip8Zero.call 0x300).1.ret).1.position_in_memory = chip8Zero.position_in_memory) ∧
    (∀ addrs : List Nat, chip8Zero.stack_pointer = 0 → addrs.length = 16 →
      (chip8Zero.callSeq addrs).2 = none ∧
      (chip8Zero.callSeq addrs).1.stack_pointer = 16 ∧
      ∀ a, (chip8Zero.callSeq addrs).1.call a =
        ((chip8Zero.callSeq addrs).1, some ChipError.StackOverflow)) ∧
    (16 ≤ chip8Zero.stack_pointer →
      chip8Zero.call 0x300 = (chip8Zero, some ChipError.StackOverflow)) ∧
    (chip8Zero.stack_pointer = 0 →
      chip8Zero.ret = (chip8Zero, some ChipError.StackUnderflow))) :=
  call_ret_stack_spec chip8Zero 0x300 (by decide)

/-! ## C3 — key-wait scan order -/

theorem keyScanFrom_succ (l : List Bool) (x n : Nat) (p : (Nat → Nat) × Bool) :
    keyScanFrom l x (n + 1) p =
      (if l.getD n false then (upd (keyScanFrom l x n p).1 x n, true)
       else keyScanFrom l x n p) := by
  unfold keyScanFrom
  rw [List.range_succ, List.foldl_append, List.foldl_cons, List.foldl_nil]

theorem keyScanFrom_ne (l : List Bool) (x n : Nat) (regs : Nat → Nat) (b : Bool)
    (j : Nat) (hj : j ≠ x) :
    (keyScanFrom l x n (regs, b)).1 j = regs j := by
  induction n with
  | zero => simp [keyScanFrom]
  | succ n ih =>
      rw [keyScanFrom_succ]
      cases hb : l.getD n false
      · simpa using ih
      · simpa [upd_other _ _ _ _ hj] using ih

theorem keyScanFrom_pressed (l : List Bool) (x n : Nat) (regs : Nat → Nat) (b : Bool) :
    (keyScanFrom l x n (regs, b)).2 =
      (b || decide (∃ i, i < n ∧ l.getD i false = true)) := by
  induction n with
  | zero => simp [keyScanFrom]
  | succ n ih =>
      rw [keyScanFrom_succ]
      cases hb : l.getD n false
      · have hiff : (∃ i, i < n + 1 ∧ l.getD i false = true) ↔
            (∃ i, i < n ∧ l.getD i false = true) := by
          constructor
          · rintro ⟨i, hi, hp⟩
            rcases Nat.lt_succ_iff_lt_or_eq.mp hi with h | h
            · exact ⟨i, h, hp⟩
            · subst h
              rw [hp] at hb
              cases hb
          · rintro ⟨i, hi, hp⟩
            exact ⟨i, by omega, hp⟩
        rw [if_neg (by simp), ih]
        congr 1
        rw [decide_eq_decide]
        exact hiff.symm
      · have hd : decide (∃ i, i < n + 1 ∧ l.getD i false = true) = true :=
          decide_eq_true ⟨n, by omega, hb⟩
        rw [if_pos rfl, hd, Bool.or_true]

theorem keyScanFrom_max (l : List Bool) (x n : Nat) (regs : Nat → Nat) (b : Bool)
    (k : Nat) (hk : k < n) (hp : l.getD k false = true)
    (hmax : ∀ j, k < j → j < n → l.getD j false = false) :
    (keyScanFrom l x n (regs, b)).1 x = k := by
  induction n with
  | zero => omega
  | succ n ih =>
      rw [keyScanFrom_succ]
      cases hb : l.getD n false
      · have hkn : k ≠ n := by
          intro h
          subst h
          rw [hp] at hb
          cases hb
        have hklt : k < n := by omega
        simpa using ih hklt (fun j hj1 hj2 => hmax j hj1 (by omega))
      · have hkn : k = n := by
          by_contra hne
          have hklt : k < n := by omega
          have hh := hmax n (by omega) (by omega)
          rw [hh] at hb
          cases hb
        subst hkn
        simp [upd_same]

/-- The key-wait handler, written through `keyScanFrom`. -/
theorem wait_eq_keyScan (s : Chip8) (x : Nat) :
    s.wait_for_keypress_store_vx x =
      { s with
        registers := (keyScanFrom s.keys x s.keys.length (s.registers, false)).1,
        position_in_memory :=
          if (keyScanFrom s.keys x s.keys.length (s.registers, false)).2 then
            s.position_in_memory
          else s.position_in_memory - 2 } := rfl

/-- C3, counterexample: with keys 0 and 1 both down, the handler stores
index 1 into Vx — the highest pressed index, not the lowest. -/
theorem wait_for_keypress_lowest_fails :
    c3State.keys.getD 0 false = true ∧ c3State.keys.getD 1 false = true ∧
    (c3State.wait_for_keypress_store_vx 0).registers 0 = 1 ∧
    (c3State.wait_for_keypress_store_vx 0).registers 0 ≠ 0 := by
  refine ⟨by decide, by decide, by decide, by decide⟩

/-- Shared content of the key-wait-with-a-pressed-key analysis: the highest
pressed index lands in Vx and the program counter is kept. -/
theorem wait_pressed_aux (s : Chip8) (x k : Nat)
    (hk : k < s.keys.length)
    (hp : s.keys.getD k false = true)
    (hmax : ∀ j, j < s.keys.length → k < j → s.keys.getD j false = false) :
    (s.wait_for_keypress_store_vx x).registers x = k ∧
    (s.wait_for_keypress_store_vx x).position_in_memory = s.position_in_memory := by
  rw [wait_eq_keyScan]
  constructor
  · exact keyScanFrom_max s.keys x s.keys.length s.registers false k hk hp
      (fun j h1 h2 => hmax j h2 h1)
  · have hd : decide (∃ i, i < s.keys.length ∧ s.keys.getD i false = true) = true :=
      decide_eq_true ⟨k, hk, hp⟩
    show (if (keyScanFrom s.keys x s.keys.length (s.registers, false)).2 = true
        then s.position_in_memory else s.position_in_memory - 2) = s.position_in_memory
    rw [keyScanFrom_pressed, hd, Bool.or_true, if_pos rfl]

/-- C3 (amended): whenever some key is down, the key-wait handler stores the
highest pressed key index into Vx (the ascending scan lets later matches
overwrite earlier ones), and the program counter is not rewound. -/
theorem wait_for_keypress_highest_wins (s : Chip8) (x k : Nat)
    (hk : k < s.keys.length)
    (hp : s.keys.getD k false = true)
    (hmax : ∀ j, j < s.keys.length → k < j → s.keys.getD j false = false) :
    (s.wait_for_keypress_store_vx x).registers x = k ∧
    (s.wait_for_keypress_store_vx x).position_in_memory = s.position_in_memory :=
  wait_pressed_aux s x k hk hp hmax

/-- C3, witness: the amended theorem evaluated with exactly key 2 down. -/
theorem wait_for_keypress_highest_wins_witness :
    (c3WitState.wait_for_keypress_store_vx 4).registers 4 = 2 ∧
    (c3WitState.wait_for_keypress_store_vx 4).position_in_memory =
      c3WitState.position_in_memory :=
  wait_for_keypress_highest_wins c3WitState 4 2 (by decide) (by decide)
    (by decide)

/-! ## C5 — bulk register transfer (Fx55 / Fx65) -/

/-- Registers above the transferred range are untouched by the Fx65 load loop. -/
theorem fillFold_ge (mem : Nat → Nat) (i : Nat) (n : Nat) (regs : Nat → Nat)
    (j : Nat) (hj : n ≤ j) :
    ((List.range n).foldl (fun f r => upd f r (mem ((i + r) % 65536))) regs) j = regs j := by
  induction n generalizing regs with
  | zero => simp
  | succ n ih =>
      rw [List.range_succ, List.foldl_append, List.foldl_cons, List.foldl_nil]
      rw [upd_other _ _ _ _ (by omega : j ≠ n)]
      exact ih regs (by omega)

/-- C5, counterexample: Fx65 with x = 15 loads the flag register from memory
(here V F goes from 0 to 7), so bulk load does not preserve V F for every x. -/
theorem fill_x15_overwrites_vf :
    (c5State.fill_registers_v0_to_vx_from_memory_at_i 15).registers 15 = 7 ∧
    c5State.registers 15 = 0 := by
  constructor
  · decide
  · decide

/-- C5 (amended): both bulk operations advance the index register by x + 1
(when the transferred window fits in memory, which the source requires to
avoid a panic); bulk store Fx55 leaves the whole register file — and thus
the flag register — unchanged, and bulk load Fx65 leaves the flag register
unchanged provided x < 15 (with x = 15 it loads V F from memory at I+15). -/
theorem bulk_transfer_spec (s : Chip8) (x : Nat) (hx : x < 16)
    (hbound : s.i_register + x < 4096) :
    ((s.load_registers_v0_to_vx_into_memory_at_i x).i_register = s.i_register + x + 1 ∧
     (s.load_registers_v0_to_vx_into_memory_at_i x).registers = s.registers) ∧
    ((s.fill_registers_v0_to_vx_from_memory_at_i x).i_register = s.i_register + x + 1 ∧
     (x < 15 → (s.fill_registers_v0_to_vx_from_memory_at_i x).registers 15 =
        s.registers 15)) := by
  refine ⟨⟨?_, rfl⟩, ?_, ?_⟩
  · show (s.i_register + x + 1) % 65536 = s.i_register + x + 1
    exact Nat.mod_eq_of_lt (by omega)
  · show (s.i_register + x + 1) % 65536 = s.i_register + x + 1
    exact Nat.mod_eq_of_lt (by omega)
  · intro h15
    exact fillFold_ge s.memory s.i_register (x + 1) s.registers 15 (by omega)

/-- C5, witness: the amended theorem evaluated on the all-zero state with
x = 14. -/
theorem bulk_transfer_spec_witness :
    ((chip8Zero.load_registers_v0_to_vx_into_memory_at_i 14).i_register =
        chip8Zero.i_register + 14 + 1 ∧
     (chip8Zero.load_registers_v0_to_vx_into_memory_at_i 14).registers =
        chip8Zero.registers) ∧
    ((chip8Zero.fill_registers_v0_to_vx_from_memory_at_i 14).i_register =
        chip8Zero.i_register + 14 + 1 ∧
     (14 < 15 → (chip8Zero.fill_registers_v0_to_vx_from_memory_at_i 14).registers 15 =
        chip8Zero.registers 15)) :=
  bulk_transfer_spec chip8Zero 14 (by decide) (by decide)

/-! ## C6 — ROM loading -/

/-- C6: any ROM that fits between the start offset and the end of memory is
copied to 0x200.. and everything else — the rest of memory and every other
state component — is left unchanged, with no fatal bounds panic. -/
theorem load_rom_spec (s : Chip8) (rom : List Nat)
    (hlen : rom.length ≤ 4096 - 0x200) :
    ∃ s', s.load_rom rom = some s' ∧
      (∀ k, k < rom.length → s'.memory (0x200 + k) = rom.getD k 0) ∧
      (∀ a, a < 0x200 ∨ 0x200 + rom.length ≤ a → s'.memory a = s.memory a) ∧
      s'.registers = s.registers ∧
      s'.position_in_memory = s.position_in_memory ∧
      s'.stack = s.stack ∧
      s'.stack_pointer = s.stack_pointer ∧
      s'.i_register = s.i_register ∧
      s'.delay_timer_register = s.delay_timer_register ∧
      s'.sound_timer_register = s.sound_timer_register ∧
      s'.keys = s.keys ∧
      s'.display = s.display := by
  have hguard : 0x200 + rom.length ≤ 0x1000 := by omega
  refine ⟨{ s with memory := fun a =>
      if 0x200 ≤ a ∧ a < 0x200 + rom.length then rom.getD (a - 0x200) 0 else s.memory a },
    ?_, ?_, ?_, rfl, rfl, rfl, rfl, rfl, rfl, rfl, rfl, rfl⟩
  · rw [Chip8.load_rom, if_pos hguard]
  · intro k hk
    show (if 0x200 ≤ 0x200 + k ∧ 0x200 + k < 0x200 + rom.length
        then rom.getD (0x200 + k - 0x200) 0 else s.memory (0x200 + k)) = rom.getD k 0
    rw [if_pos (by omega)]
    have hik : 0x200 + k - 0x200 = k := by omega
    rw [hik]
  · intro a ha
    show (if 0x200 ≤ a ∧ a < 0x200 + rom.length
        then rom.getD (a - 0x200) 0 else s.memory a) = s.memory a
    rw [if_neg (by omega)]

/-- C6, witness: loading the two-byte ROM [0xAB, 0xCD] into a fresh VM. -/
theorem load_rom_spec_witness :
    ([0xAB, 0xCD] : List Nat).length ≤ 4096 - 0x200 ∧
    ∃ s', Chip8.new.load_rom [0xAB, 0xCD] = some s' ∧
      (∀ k, k < ([0xAB, 0xCD] : List Nat).length →
        s'.memory (0x200 + k) = ([0xAB, 0xCD] : List Nat).getD k 0) ∧
      (∀ a, a < 0x200 ∨ 0x200 + ([0xAB, 0xCD] : List Nat).length ≤ a →
        s'.memory a = Chip8.new.memory a) ∧
      s'.registers = Chip8.new.registers ∧
      s'.position_in_memory = Chip8.new.position_in_memory ∧
      s'.stack = Chip8.new.stack ∧
      s'.stack_pointer = Chip8.new.stack_pointer ∧
      s'.i_register = Chip8.new.i_register ∧
      s'.delay_timer_register = Chip8.new.delay_timer_register ∧
      s'.sound_timer_register = Chip8.new.sound_timer_register ∧
      s'.keys = Chip8.new.keys ∧
      s'.display = Chip8.new.display :=
  ⟨by decide, load_rom_spec Chip8.new [0xAB, 0xCD] (by decide)⟩

/-! ## C10 — key-indexed skips need Vx within the keypad -/

/-- C10: the Ex9E/ExA1 handlers perform a defined skip only when Vx is at
most 15; with Vx at least 16 the key-array access is out of bounds and the
handlers fail fatally, leaving the state unchanged. -/
theorem skip_key_bounds_spec (s : Chip8) (x : Nat) (hlen : s.keys.length = 16) :
    (16 ≤ s.registers x →
      s.skip_if_key_at_vx_pressed x =
        (s, some (ChipError.KeyIndexOutOfBounds (s.registers x))) ∧
      s.skip_if_key_at_vx_not_pressed x =
        (s, some (ChipError.KeyIndexOutOfBounds (s.registers x)))) ∧
    (s.registers x ≤ 15 →
      (s.skip_if_key_at_vx_pressed x).2 = none ∧
      (s.skip_if_key_at_vx_pressed x).1.position_in_memory =
        (if s.keys.getD (s.registers x) false then s.position_in_memory + 2
         else s.position_in_memory) ∧
      (s.skip_if_key_at_vx_not_pressed x).2 = none ∧
      (s.skip_if_key_at_vx_not_pressed x).1.position_in_memory =
        (if s.keys.getD (s.registers x) false then s.position_in_memory
         else s.position_in_memory + 2)) := by
  constructor
  · intro h16
    have hnone : s.keys.get? (s.registers x) = none :=
      List.get?_eq_none.mpr (by omega)
    constructor
    · rw [Chip8.skip_if_key_at_vx_pressed, hnone]
    · rw [Chip8.skip_if_key_at_vx_not_pressed, hnone]
  · intro h15
    have hlt : s.registers x < s.keys.length := by omega
    have hsome : s.keys.get? (s.registers x) = some (s.keys.get ⟨s.registers x, hlt⟩) :=
      List.get?_eq_get hlt
    have hgd : s.keys.getD (s.registers x) false = s.keys.get ⟨s.registers x, hlt⟩ := by
      rw [List.getD_eq_getElem?_getD, ← List.get?_eq_getElem?, hsome]
      rfl
    rw [Chip8.skip_if_key_at_vx_pressed, Chip8.skip_if_key_at_vx_not_pressed, hsome, hgd]
    exact ⟨rfl, rfl, rfl, rfl⟩

/-- C10, witness: the theorem evaluated on the all-zero state (Vx = 0, within
bounds: both skips are defined and no error is raised). -/
theorem skip_key_bounds_spec_witness :
    ((16 ≤ chip8Zero.registers 0 →
      chip8Zero.skip_if_key_at_vx_pressed 0 =
        (chip8Zero, some (ChipError.KeyIndexOutOfBounds (chip8Zero.registers 0))) ∧
      chip8Zero.skip_if_key_at_vx_not_pressed 0 =
        (chip8Zero, some (ChipError.KeyIndexOutOfBounds (chip8Zero.registers 0)))) ∧
    (chip8Zero.registers 0 ≤ 15 →
      (chip8Zero.skip_if_key_at_vx_pressed 0).2 = none ∧
      (chip8Zero.skip_if_key_at_vx_pressed 0).1.position_in_memory =
        (if chip8Zero.keys.getD (chip8Zero.registers 0) false then
          chip8Zero.position_in_memory + 2
         else chip8Zero.position_in_memory) ∧
      (chip8Zero.skip_if_key_at_vx_not_pressed 0).2 = none ∧
      (chip8Zero.skip_if_key_at_vx_not_pressed 0).1.position_in_memory =
        (if chip8Zero.keys.getD (chip8Zero.registers 0) false then
          chip8Zero.position_in_memory
         else chip8Zero.position_in_memory + 2))) :=
  skip_key_bounds_spec chip8Zero 0 (by decide)

/-! ## C8 — double draw -/

theorem toggleFold_cons (p : (Nat → Bool) × Bool) (a : Nat) (t : List Nat) :
    toggleFold p (a :: t) = toggleFold (upd p.1 a (!p.1 a), p.2 || p.1 a) t := rfl

theorem toggleFold_append (p : (Nat → Bool) × Bool) (L1 L2 : List Nat) :
    toggleFold p (L1 ++ L2) = toggleFold (toggleFold p L1) L2 :=
  List.foldl_append _ _ _ _

theorem any_eq_on (l : List Nat) (g h : Nat → Bool)
    (hgh : ∀ q, q ∈ l → g q = h q) : l.any g = l.any h := by
  induction l with
  | nil => rfl
  | cons a t ih =>
      simp only [List.any_cons]
      rw [hgh a (by simp), ih (fun q hq => hgh q (by simp [hq]))]

theorem toggleFold_display (L : List Nat) :
    ∀ (d : Nat → Bool) (f : Bool), L.Nodup → ∀ q,
      (toggleFold (d, f) L).1 q = if q ∈ L then !(d q) else d q := by
  induction L with
  | nil =>
      intro d f _ q
      simp [toggleFold]
  | cons a t ih =>
      intro d f hnd q
      have hat : a ∉ t := (List.nodup_cons.mp hnd).1
      rw [toggleFold_cons]
      rw [ih _ _ (List.nodup_cons.mp hnd).2 q]
      by_cases hq : q = a
      · subst hq
        simp [hat, upd_same]
      · rw [upd_other _ _ _ _ hq]
        simp [List.mem_cons, hq]

theorem toggleFold_flag (L : List Nat) :
    ∀ (d : Nat → Bool) (f : Bool), L.Nodup →
      (toggleFold (d, f) L).2 = (f || L.any (fun q => d q)) := by
  induction L with
  | nil =>
      intro d f _
      simp [toggleFold]
  | cons a t ih =>
      intro d f hnd
      have hat : a ∉ t := (List.nodup_cons.mp hnd).1
      rw [toggleFold_cons, ih _ _ (List.nodup_cons.mp hnd).2]
      have hcongr : t.any (fun q => upd d a (!d a) q) = t.any (fun q => d q) :=
        any_eq_on t _ _ (fun q hq => upd_other _ _ _ _ (fun h => hat (h ▸ hq)))
      rw [hcongr]
      simp [List.any_cons, Bool.or_assoc]

theorem foldl_filter_toggle (P : Nat → Prop) [DecidablePred P] (g : Nat → Nat)
    (l : List Nat) :
    ∀ acc : (Nat → Bool) × Bool,
      l.foldl (fun acc2 xl =>
          if P xl then (upd acc2.1 (g xl) (!acc2.1 (g xl)), acc2.2 || acc2.1 (g xl))
          else acc2) acc
        = toggleFold acc ((l.filter (fun xl => decide (P xl))).map g) := by
  induction l with
  | nil =>
      intro acc
      rfl
  | cons a t ih =>
      intro acc
      rw [List.foldl_cons]
      by_cases ha : P a
      · rw [List.filter_cons_of_pos (by simpa using ha), List.map_cons, toggleFold_cons]
        rw [if_pos ha, ih]
      · rw [List.filter_cons_of_neg (by simpa using ha)]
        rw [if_neg ha, ih]

theorem pixList_succ (s : Chip8) (x y m : Nat) :
    pixList s x y (m + 1) = pixList s x y m ++
      ((List.range 8).filter (fun x_line =>
          decide (s.memory ((s.i_register + m) % 65536) &&& (0x80 >>> x_line) ≠ 0))).map
        (fun x_line =>
          ((s.registers y + m) % 256 % 32) * 64 +
            (s.registers x + x_line) % 256 % 64) := by
  unfold pixList
  rw [List.range_succ, List.flatMap_append]
  simp

theorem mod256_mod32 (a : Nat) : a % 256 % 32 = a % 32 :=
  Nat.mod_mod_of_dvd a (by norm_num)

theorem mod256_mod64 (a : Nat) : a % 256 % 64 = a % 64 :=
  Nat.mod_mod_of_dvd a (by norm_num)

theorem pixList_nodup (s : Chip8) (x y : Nat) :
    ∀ n, n ≤ 32 → (pixList s x y n).Nodup := by
  intro n
  induction n with
  | zero =>
      intro _
      simp [pixList]
  | succ m ih =>
      intro hn
      rw [pixList_succ]
      refine List.Nodup.append (ih (by omega)) ?_ ?_
      · refine List.Nodup.map_on ?_ ((List.nodup_range 8).filter _)
        intro x1 hx1 x2 hx2 heq
        have h1 : x1 < 8 := List.mem_range.mp (List.mem_filter.mp hx1).1
        have h2 : x2 < 8 := List.mem_range.mp (List.mem_filter.mp hx2).1
        rw [mod256_mod32, mod256_mod64, mod256_mod64] at heq
        omega
      · intro q hq1 hq2
        rcases List.mem_flatMap.mp hq1 with ⟨yl, hyl, hq⟩
        have hylm : yl < m := List.mem_range.mp hyl
        rcases List.mem_map.mp hq with ⟨xl, hxl, hpix⟩
        have hxl8 : xl < 8 := List.mem_range.mp (List.mem_filter.mp hxl).1
        rcases List.mem_map.mp hq2 with ⟨xl2, hxl2, hpix2⟩
        have hxl28 : xl2 < 8 := List.mem_range.mp (List.mem_filter.mp hxl2).1
        rw [← hpix2] at hpix
        rw [mod256_mod32, mod256_mod32, mod256_mod64, mod256_mod64] at hpix
        omega

theorem draw_eq_toggle (s : Chip8) (x y n : Nat) :
    s.draw x y n = { s with
      display := (toggleFold (s.display, false) (pixList s x y n)).1,
      registers := upd s.registers 15
        (if (toggleFold (s.display, false) (pixList s x y n)).2 then 1 else 0) } := by
  have hfold : ∀ m : Nat,
      (List.range m).foldl
        (fun acc y_line =>
          (List.range 8).foldl
            (fun acc2 x_line =>
              if s.memory ((s.i_register + y_line) % 65536) &&& (0x80 >>> x_line) ≠ 0 then
                (upd acc2.1
                    (((s.registers y + y_line) % 256 % 32) * 64 +
                      (s.registers x + x_line) % 256 % 64)
                    (!acc2.1
                      (((s.registers y + y_line) % 256 % 32) * 64 +
                        (s.registers x + x_line) % 256 % 64)),
                  acc2.2 || acc2.1
                    (((s.registers y + y_line) % 256 % 32) * 64 +
                      (s.registers x + x_line) % 256 % 64))
              else acc2)
            acc)
        (s.display, false) = toggleFold (s.display, false) (pixList s x y m) := by
    intro m
    induction m with
    | zero => rfl
    | succ m ih =>
        rw [show List.range (m + 1) = List.range m ++ [m] from List.range_succ m,
          List.foldl_append, List.foldl_cons, List.foldl_nil, ih,
          pixList_succ, toggleFold_append]
        exact foldl_filter_toggle
          (fun x_line =>
            s.memory ((s.i_register + m) % 65536) &&& (0x80 >>> x_line) ≠ 0)
          (fun x_line =>
            ((s.registers y + m) % 256 % 32) * 64 +
              (s.registers x + x_line) % 256 % 64)
          (List.range 8) _
  simp only [Chip8.draw]
  rw [hfold n]

/-- C8, counterexample: with x = 0xF the first draw's write to the flag
register changes the x coordinate of the second draw, so a touched pixel
(cell 1) stays lit instead of being toggled back. -/
theorem draw_twice_claim_fails_for_flag_operand :
    (1 ∈ pixList c8State 15 0 1) ∧
    c8State.display 1 = false ∧
    ((c8State.draw 15 0 1).draw 15 0 1).display 1 = true := by
  refine ⟨by decide, by decide, by decide⟩

/-- C8 (amended): provided neither register operand is the flag register
(x ≠ 0xF, y ≠ 0xF), the sprite height is a nibble-sized value (n ≤ 32)
and the sprite rows lie in memory, drawing the same sprite twice with the
same arguments restores every display cell (touched ones included) to its
pre-draw value, and the second draw reports a collision (flag register 1)
iff some touched cell was set after the first draw. -/
theorem draw_twice_spec (s : Chip8) (x y n : Nat)
    (hx : x ≠ 15) (hy : y ≠ 15) (hn : n ≤ 32) (hb : s.i_register + n ≤ 4096) :
    (∀ q, ((s.draw x y n).draw x y n).display q = s.display q) ∧
    (((s.draw x y n).draw x y n).registers 15 = 1 ↔
      ∃ q, q ∈ pixList s x y n ∧ (s.draw x y n).display q = true) := by
  have hnd := pixList_nodup s x y n hn
  have hregx : (s.draw x y n).registers x = s.registers x := by
    rw [draw_eq_toggle]
    exact upd_other _ _ _ _ hx
  have hregy : (s.draw x y n).registers y = s.registers y := by
    rw [draw_eq_toggle]
    exact upd_other _ _ _ _ hy
  have hmem : (s.draw x y n).memory = s.memory := by rw [draw_eq_toggle]
  have hi : (s.draw x y n).i_register = s.i_register := by rw [draw_eq_toggle]
  have hpl : pixList (s.draw x y n) x y n = pixList s x y n := by
    simp only [pixList, hregx, hregy, hmem, hi]
  have hd1 : ∀ q, (s.draw x y n).display q =
      if q ∈ pixList s x y n then !(s.display q) else s.display q := by
    intro q
    rw [draw_eq_toggle]
    exact toggleFold_display _ _ _ hnd q
  have hd2 : ∀ q, ((s.draw x y n).draw x y n).display q =
      if q ∈ pixList s x y n then !((s.draw x y n).display q)
      else (s.draw x y n).display q := by
    intro q
    rw [draw_eq_toggle (s.draw x y n), hpl]
    exact toggleFold_display _ _ _ hnd q
  constructor
  · intro q
    rw [hd2 q, hd1 q]
    by_cases hq : q ∈ pixList s x y n
    · simp [hq]
    · simp [hq]
  · have hreg : ((s.draw x y n).draw x y n).registers 15 =
        (if (toggleFold ((s.draw x y n).display, false) (pixList s x y n)).2
         then 1 else 0) := by
      rw [draw_eq_toggle (s.draw x y n), hpl]
      simp [upd]
    rw [hreg, toggleFold_flag _ _ _ hnd, Bool.false_or]
    by_cases hany : (pixList s x y n).any (fun q => (s.draw x y n).display q) = true
    · rw [if_pos hany]
      exact ⟨fun _ => by simpa using List.any_eq_true.mp hany, fun _ => rfl⟩
    · rw [if_neg hany]
      constructor
      · intro h0
        exact absurd h0 (by norm_num)
      · intro hex
        exact absurd (List.any_eq_true.mpr (by simpa using hex)) hany

/-- C8, witness: the amended theorem evaluated on a two-pixel sprite with one
target cell already lit. -/
theorem draw_twice_spec_witness :
    (∀ q, ((c8WitState.draw 0 1 1).draw 0 1 1).display q = c8WitState.display q) ∧
    (((c8WitState.draw 0 1 1).draw 0 1 1).registers 15 = 1 ↔
      ∃ q, q ∈ pixList c8WitState 0 1 1 ∧ (c8WitState.draw 0 1 1).display q = true) :=
  draw_twice_spec c8WitState 0 1 1 (by decide) (by decide) (by decide) (by decide)

/-! ## C7 — one tick at a key-wait instruction -/

/-- Big-endian byte assembly: the combine step of `fetch` in arithmetic form. -/
theorem byte_combine (b1 b2 : Nat) (h2 : b2 < 256) : b1 <<< 8 ||| b2 = b1 * 256 + b2 := by
  have h256 : b2 < 2 ^ 8 := h2
  have hrw : b1 * 256 + b2 = 2 ^ 8 * b1 + b2 := by ring
  apply Nat.eq_of_testBit_eq
  intro i
  rw [hrw, Nat.testBit_mul_pow_two_add b1 h256 i, Nat.testBit_or, Nat.testBit_shiftLeft]
  rcases Nat.lt_or_ge i 8 with hi | hi
  · have h1 : ¬ i ≥ 8 := by omega
    simp [hi, h1]
  · have h1 : ¬ i < 8 := by omega
    have hb2 : b2.testBit i = false := Nat.testBit_lt_two_pow (by
      calc b2 < 2 ^ 8 := h256
      _ ≤ 2 ^ i := Nat.pow_le_pow_right (by omega) hi)
    simp [hi, h1, hb2]

/-- Decoding the assembled word Fx0A yields the key-wait variant. -/
theorem decode_wait (x : Nat) (hx : x < 16) :
    Chip8Op.decode ((0xF0 + x) <<< 8 ||| 0x0A) = Chip8Op.WaitForKeyPressAndStoreVx x := by
  rw [byte_combine _ _ (by omega)]
  have hc : (((0xF0 + x) * 256 + 10) &&& 0xF000) >>> 12 = 15 := by
    rw [nibble_c]
    omega
  have hxn : (((0xF0 + x) * 256 + 10) &&& 0x0F00) >>> 8 = x := by
    rw [nibble_x]
    omega
  have hyn : (((0xF0 + x) * 256 + 10) &&& 0x00F0) >>> 4 = 0 := by
    rw [nibble_y]
    omega
  have hdd : ((0xF0 + x) * 256 + 10) &&& 0x000F = 10 := by
    rw [nibble_d]
    omega
  have hkk : ((0xF0 + x) * 256 + 10) &&& 0x00FF = 10 := by
    rw [imm_kk]
    omega
  simp only [Chip8Op.decode, hc, hxn, hyn, hdd, hkk]
  norm_num

theorem keyScanFrom_none (l : List Bool) (x : Nat) :
    ∀ (n : Nat) (regs : Nat → Nat) (b : Bool),
      (∀ i, i < n → l.getD i false = false) →
      (keyScanFrom l x n (regs, b)).1 = regs := by
  intro n
  induction n with
  | zero =>
      intro regs b _
      rfl
  | succ n ih =>
      intro regs b h
      rw [keyScanFrom_succ, h n (by omega), if_neg (by simp)]
      exact ih regs b (fun i hi => h i (by omega))

/-- With no key down, the key-wait handler only rewinds the program counter. -/
theorem wait_for_keypress_none (s : Chip8) (x : Nat)
    (h : ∀ i, i < s.keys.length → s.keys.getD i false = false) :
    s.wait_for_keypress_store_vx x =
      { s with position_in_memory := s.position_in_memory - 2 } := by
  rw [wait_eq_keyScan]
  have h1 := keyScanFrom_none s.keys x s.keys.length s.registers false h
  have h2 : (keyScanFrom s.keys x s.keys.length (s.registers, false)).2 = false := by
    rw [keyScanFrom_pressed, Bool.false_or]
    apply decide_eq_false
    rintro ⟨i, hi, hp⟩
    rw [h i hi] at hp
    cases hp
  rw [h1, h2, if_neg (by simp)]

/-- C7: a tick whose fetched instruction is Fx0A leaves the program counter
and all registers unchanged when no key is down (fetch advances by 2, the
handler rewinds by 2), and with some key down it advances the program
counter by 2 and stores the observed (highest pressed) key index in Vx;
either way the tick itself raises no error. -/
theorem tick_key_wait_spec (s : Chip8) (x : Nat) (hx : x < 16)
    (hm1 : s.memory s.position_in_memory = 0xF0 + x)
    (hm2 : s.memory (s.position_in_memory + 1) = 0x0A) :
    ((∀ i, i < s.keys.length → s.keys.getD i false = false) →
      s.tick.2 = none ∧
      s.tick.1.position_in_memory = s.position_in_memory ∧
      s.tick.1.registers = s.registers) ∧
    (∀ k, k < s.keys.length → s.keys.getD k false = true →
      (∀ j, j < s.keys.length → k < j → s.keys.getD j false = false) →
      s.tick.2 = none ∧
      s.tick.1.position_in_memory = s.position_in_memory + 2 ∧
      s.tick.1.registers x = k) := by
  have hw : s.tick =
      (Chip8.wait_for_keypress_store_vx
        { s with position_in_memory := s.position_in_memory + 2 } x, none) := by
    have h1 : s.tick = (s.fetch).2.execute (Chip8Op.decode (s.fetch).1) := rfl
    have h2 : (s.fetch).1 = (0xF0 + x) <<< 8 ||| 0x0A := by
      show s.memory s.position_in_memory <<< 8 ||| s.memory (s.position_in_memory + 1) = _
      rw [hm1, hm2]
    rw [h1, h2, decode_wait x hx]
    rfl
  constructor
  · intro hnone
    rw [hw]
    have hwait := wait_for_keypress_none
      { s with position_in_memory := s.position_in_memory + 2 } x hnone
    rw [hwait]
    refine ⟨rfl, ?_, rfl⟩
    show s.position_in_memory + 2 - 2 = s.position_in_memory
    omega
  · intro k hk hp hmax
    rw [hw]
    have haux := wait_pressed_aux
      { s with position_in_memory := s.position_in_memory + 2 } x k hk hp hmax
    exact ⟨rfl, haux.2, haux.1⟩

/-- C7, witness: the theorem evaluated on a state sitting at F30A with key 5
down (both branches instantiated; only the pressed branch fires). -/
theorem tick_key_wait_spec_witness :
    ((∀ i, i < c7State.keys.length → c7State.keys.getD i false = false) →
      c7State.tick.2 = none ∧
      c7State.tick.1.position_in_memory = c7State.position_in_memory ∧
      c7State.tick.1.registers = c7State.registers) ∧
    (∀ k, k < c7State.keys.length → c7State.keys.getD k false = true →
      (∀ j, j < c7State.keys.length → k < j → c7State.keys.getD j false = false) →
      c7State.tick.2 = none ∧
      c7State.tick.1.position_in_memory = c7State.position_in_memory + 2 ∧
      c7State.tick.1.registers 3 = k) :=
  tick_key_wait_spec c7State 3 (by decide) (by decide) (by decide)

/-! ## C9 — program-counter stepping -/

/-- C9, counterexample: from freshly constructed VMs, one successful tick of
the jump 1201 reaches the odd program counter 0x201, and two successful
ticks of 60FF/BFFF reach the out-of-bounds program counter 0x10FE: neither
evenness nor the memory bound is an invariant of tick(). -/
theorem reachable_pc_odd_and_out_of_bounds :
    (Chip8.new_with_rom c9OddRom).isSome = true ∧
    c9OddState.tick.2 = none ∧
    c9OddState.tick.1.position_in_memory = 0x201 ∧
    0x201 % 2 = 1 ∧
    (Chip8.new_with_rom c9OobRom).isSome = true ∧
    c9OobState.tick.2 = none ∧
    (c9OobState.tick.1.tick).2 = none ∧
    (c9OobState.tick.1.tick).1.position_in_memory = 0x10FE ∧
    4096 ≤ 0x10FE := by
  refine ⟨by decide, by decide, by decide, by decide, by decide, by decide,
    by decide, by decide, by decide⟩

/-- C9 (amended): the fetch step always advances the program counter by
exactly 2 and a conditional skip adds either 2 or 0 on top, but a jump sets
the program counter to its raw operand and jump-with-offset to operand
plus V0 — targets that need be neither even nor within memory bounds. -/
theorem pc_step_spec (s : Chip8) :
    ((s.fetch).2.position_in_memory = s.position_in_memory + 2) ∧
    (∀ x kk, (s.skip_if_equal_at_x x kk).position_in_memory = s.position_in_memory + 2 ∨
      (s.skip_if_equal_at_x x kk).position_in_memory = s.position_in_memory) ∧
    (∀ nnn, (s.jump nnn).position_in_memory = nnn) ∧
    (∀ nnn, (s.jump_plus_v0 nnn).position_in_memory = nnn + s.registers 0) := by
  refine ⟨rfl, ?_, fun _ => rfl, fun _ => rfl⟩
  intro x kk
  by_cases h : s.registers x = kk
  · left
    simp [Chip8.skip_if_equal_at_x, h]
  · right
    simp [Chip8.skip_if_equal_at_x, h]
